import Mathlib

/-!
Verification of the dataset-preprocessing core of the cats/dogs MLOps
repository (src/data/preprocess.py), shallowly embedded in Lean 4.

Conventions of the embedding:
- A directory listing is a list of `Entry` values (the data `Path.iterdir`
  exposes of each direct child: its final name component and whether it is a
  regular file).
- Python floats appearing as split ratios are modelled as exact rationals.
  Every concrete ratio used in theorems below is a dyadic or small decimal
  value on which IEEE-754 double arithmetic is exact at the granularity the
  claims test (the 1e-6 guard, integer boundary computations).
- `random.seed` / `random.shuffle` from CPython: the shuffle loop
  (Fisher-Yates, swapping index i with a drawn j in [0, i] for i = n-1 .. 1)
  is translated exactly; the underlying Mersenne-Twister generator is code of
  CPython, not of this repository, and is modelled by a concrete 64-bit
  mixed congruential generator with the same interface (seed resets the
  whole generator state; each draw advances the state).  No theorem below
  depends on the particular values drawn, only on the shuffle structure and
  on the state discipline.
- Fallible Python code is translated to `Except` / `Option`; the `assert`
  statements and raised exceptions of the source are the `PyError` cases,
  named after the specification's error taxonomy where a case corresponds
  to one of its entries.
-/

namespace CatsDogs

/-- One directory entry as `Path.iterdir` presents it: the file name (final
component) and whether the entry is a regular file. -/
structure Entry where
  name : String
  isFile : Bool
deriving DecidableEq, Repr

/-- Index of the last occurrence of a character in a character list. -/
def lastIdxOf (c : Char) : List Char → Option Nat
  | [] => none
  | x :: xs =>
    match lastIdxOf c xs with
    | some i => some (i + 1)
    | none => if x = c then some 0 else none

/-- `pathlib.PurePath.suffix`: the substring of the name from its last dot,
provided that dot is neither the first nor the last character; otherwise
the empty string. -/
def suffixOf (s : String) : String :=
  let cs := s.toList
  match lastIdxOf '.' cs with
  | some i => if 0 < i && i + 1 < cs.length then String.mk (cs.drop i) else ""
  | none => ""

/-- The extension allow-list of `get_image_files`. -/
def exts : List String := [".jpg", ".jpeg", ".png", ".bmp"]

/-- `str.lower()` on the ASCII strings produced by `Path.suffix` for the
extensions at stake: lower-case every character. -/
def lowerString (s : String) : String :=
  String.mk (s.toList.map Char.toLower)

/-- `get_image_files(directory)`: keep the direct children that are regular
files whose lower-cased suffix is in the allow-list. -/
def get_image_files (dir : List Entry) : List Entry :=
  dir.filter fun f => f.isFile && exts.contains (lowerString (suffixOf f.name))

/-- Model state of the `random` module's global generator. -/
abbrev RandState : Type := Nat

/-- `random.seed(seed)`: discard the previous global state and install a
state derived from the seed alone (model of the Mersenne-Twister
re-initialisation). -/
def seedState (seed : Nat) : RandState :=
  (seed * 6364136223846793005 + 1442695040888963407) % 18446744073709551616

/-- Advance the modelled generator one step, producing a raw draw. -/
def randStep (s : RandState) : Nat × RandState :=
  let s2 := (s * 6364136223846793005 + 1442695040888963407) % 18446744073709551616
  (s2 / 8589934592, s2)

/-- `random._randbelow(k)`: a draw uniform on `[0, k)` (model); consumes
generator state. -/
def randbelow (s : RandState) (k : Nat) : Nat × RandState :=
  if k = 0 then (0, s)
  else
    let rs := randStep s
    (rs.1 % k, rs.2)

/-- Exchange the elements at positions `i` and `j`
(`x[i], x[j] = x[j], x[i]`); out-of-range positions leave the list
unchanged (they never occur in the shuffle loop). -/
def swapList (l : List α) (i j : Nat) : List α :=
  match l[i]?, l[j]? with
  | some x, some y => (l.set i y).set j x
  | _, _ => l

/-- The loop of `random.shuffle`: for `i = n-1` down to `1`, draw
`j = randbelow (i+1)` and swap positions `i` and `j`.  The argument is the
next index to process. -/
def shuffleFrom : Nat → RandState → List α → List α × RandState
  | 0, s, l => (l, s)
  | i + 1, s, l =>
    let d := randbelow s (i + 2)
    shuffleFrom i d.2 (swapList l (i + 1) d.1)

/-- `random.shuffle(x)` on the whole list. -/
def pyShuffle (s : RandState) (l : List α) : List α × RandState :=
  shuffleFrom (l.length - 1) s l

/-- Python `int()` applied to a rational: truncation toward zero. -/
def pyInt (q : ℚ) : Int :=
  if q < 0 then -(Int.floor (-q)) else Int.floor q

/-- Normalise one Python slice bound for a list of length `n`: negative
bounds count from the end, and the result is clamped into `[0, n]`. -/
def pyIndex (n : Nat) (i : Int) : Nat :=
  if i < 0 then (i + n).toNat else min i.toNat n

/-- Python slice `l[a:b]`. -/
def pySlice (l : List α) (a b : Int) : List α :=
  (l.take (pyIndex l.length b)).drop (pyIndex l.length a)

/-- Failure modes of the preprocessing core, named after the
specification's error taxonomy.  `invalidConfiguration` is the
`AssertionError` of the ratio-sum assert, `emptyOutput` the
`AssertionError` of the final sanity check (its message names the
offending split and class), `notFound` is `FileNotFoundError`, and
`nameError` is Python's `NameError` for an undefined name. -/
inductive PyError where
  | invalidConfiguration
  | notFound (path : String)
  | emptyOutput (split cls : String)
  | nameError (n : String)
deriving DecidableEq, Repr

/-- Filesystem actions the splitter can perform. -/
inductive FsEvent where
  | readDir
deriving DecidableEq, Repr

/-- Result of one `split_dataset` call: the returned value or the raised
error, the filesystem actions performed, and the state the global random
generator is left in. -/
structure SplitOutput (α : Type) where
  result : Except PyError (List α × List α × List α)
  fsLog : List FsEvent
  rand : RandState

/-- `split_dataset(data_dir, train_ratio, val_ratio, test_ratio, seed)`.
Order of operations as in the source: the ratio-sum assert first (before
any filesystem access), then the directory scan, then `random.seed` and
`random.shuffle`, then the two `int(n * ratio)` cut points and the three
slices.  `g` is the global generator state the call starts from; the
assert failure leaves it untouched. -/
def split_dataset (dir : List Entry) (trainR valR testR : ℚ) (seed : Nat)
    (g : RandState) : SplitOutput Entry :=
  if |trainR + valR + testR - 1| < 1 / 1000000 then
    let files := get_image_files dir
    let sh := pyShuffle (seedState seed) files
    let trainEnd := pyInt ((files.length : ℚ) * trainR)
    let valEnd := trainEnd + pyInt ((files.length : ℚ) * valR)
    { result := .ok (pySlice sh.1 0 trainEnd, pySlice sh.1 trainEnd valEnd,
        pySlice sh.1 valEnd (sh.1.length : Int)),
      fsLog := [.readDir],
      rand := sh.2 }
  else
    { result := .error .invalidConfiguration, fsLog := [], rand := g }

/-- The train component of a split result (empty if the call failed). -/
def splitTrain (o : SplitOutput α) : List α :=
  match o.result with
  | .ok t => t.1
  | .error _ => []

/-- The validation component of a split result. -/
def splitVal (o : SplitOutput α) : List α :=
  match o.result with
  | .ok t => t.2.1
  | .error _ => []

/-- The test component of a split result. -/
def splitTest (o : SplitOutput α) : List α :=
  match o.result with
  | .ok t => t.2.2
  | .error _ => []

/-! ### Helper lemmas: the shuffle permutes, Python slices partition -/

/-- Consing an element taken from position `i` onto the list with position
`i` overwritten is a permutation of consing the new value onto the
original list. -/
theorem cons_set_perm {α : Type} (l : List α) (i : Nat) (a b : α)
    (h : l[i]? = some a) : (a :: l.set i b).Perm (b :: l) := by
  induction l generalizing i with
  | nil => simp at h
  | cons x xs ih =>
    cases i with
    | zero =>
      simp only [List.getElem?_cons_zero, Option.some.injEq] at h
      subst h
      exact List.Perm.swap _ _ _
    | succ i =>
      simp only [List.getElem?_cons_succ] at h
      have h1 : (a :: x :: xs.set i b).Perm (x :: a :: xs.set i b) :=
        List.Perm.swap _ _ _
      have h2 : (x :: a :: xs.set i b).Perm (x :: b :: xs) := (ih i h).cons x
      have h3 : (x :: b :: xs).Perm (b :: x :: xs) := List.Perm.swap _ _ _
      exact (h1.trans h2).trans h3

/-- Swapping two positions permutes the list. -/
theorem swapList_perm {α : Type} (l : List α) (i j : Nat) :
    (swapList l i j).Perm l := by
  unfold swapList
  cases hx : l[i]? with
  | none => exact List.Perm.refl l
  | some x =>
    cases hy : l[j]? with
    | none => exact List.Perm.refl l
    | some y =>
      have hi : i < l.length := (List.getElem?_eq_some_iff.mp hx).1
      have h2 : (l.set i y)[j]? = some y := by
        by_cases hij : i = j
        · subst hij
          exact List.getElem?_set_self (by simpa using hi)
        · rw [List.getElem?_set_ne hij]
          exact hy
      have p1 : (x :: l.set i y).Perm (y :: l) := cons_set_perm l i x y hx
      have p2 : (y :: (l.set i y).set j x).Perm (x :: l.set i y) :=
        cons_set_perm (l.set i y) j y x h2
      exact (p2.trans p1).cons_inv

/-- Every stage of the shuffle loop permutes the list. -/
theorem shuffleFrom_perm {α : Type} (s : RandState) (l : List α) (i : Nat) :
    ((shuffleFrom i s l).1).Perm l := by
  induction i generalizing s l with
  | zero => exact List.Perm.refl l
  | succ i ih => exact (ih _ _).trans (swapList_perm l (i + 1) _)

/-- The shuffled list is a permutation of the input. -/
theorem pyShuffle_perm {α : Type} (s : RandState) (l : List α) :
    ((pyShuffle s l).1).Perm l :=
  shuffleFrom_perm s l (l.length - 1)

theorem pyShuffle_length {α : Type} (s : RandState) (l : List α) :
    (pyShuffle s l).1.length = l.length :=
  (pyShuffle_perm s l).length_eq

theorem pyIndex_zero (n : Nat) : pyIndex n 0 = 0 := by
  simp [pyIndex]

theorem pyIndex_length (n : Nat) : pyIndex n (n : Int) = n := by
  unfold pyIndex
  split <;> omega

theorem pyIndex_le (n : Nat) (a : Int) : pyIndex n a ≤ n := by
  unfold pyIndex
  split <;> omega

theorem pyIndex_mono (n : Nat) {a b : Int} (h0 : 0 ≤ a) (hab : a ≤ b) :
    pyIndex n a ≤ pyIndex n b := by
  unfold pyIndex
  split <;> split <;> omega

theorem pyIndex_of_nonneg_le (n : Nat) {a : Int} (h0 : 0 ≤ a)
    (hn : a ≤ (n : Int)) : pyIndex n a = a.toNat := by
  unfold pyIndex
  split <;> omega

/-- The three Python slices `l[:a]`, `l[a:b]`, `l[b:]` concatenate back to
`l` whenever `0 ≤ a ≤ b`. -/
theorem pySlice_tri {α : Type} (l : List α) (a b : Int) (h0 : 0 ≤ a)
    (hab : a ≤ b) :
    pySlice l 0 a ++ pySlice l a b ++ pySlice l b (l.length : Int) = l := by
  unfold pySlice
  rw [pyIndex_zero, pyIndex_length, List.drop_zero, List.take_length]
  have hab' : pyIndex l.length a ≤ pyIndex l.length b := pyIndex_mono _ h0 hab
  have h1 : l.take (pyIndex l.length a) =
      (l.take (pyIndex l.length b)).take (pyIndex l.length a) := by
    rw [List.take_take, min_eq_left hab']
  rw [h1, List.take_append_drop, List.take_append_drop]

theorem pyInt_of_nonneg {q : ℚ} (h : 0 ≤ q) : pyInt q = Int.floor q := by
  unfold pyInt
  rw [if_neg (not_lt.mpr h)]

theorem pyInt_nonneg {q : ℚ} (h : 0 ≤ q) : 0 ≤ pyInt q := by
  rw [pyInt_of_nonneg h]
  exact Int.floor_nonneg.mpr h

/-- Explicit form of a `split_dataset` call that passes the ratio-sum
assert. -/
theorem split_dataset_ok (dir : List Entry) (trainR valR testR : ℚ)
    (seed : Nat) (g : RandState)
    (hg : |trainR + valR + testR - 1| < 1 / 1000000) :
    split_dataset dir trainR valR testR seed g =
      { result := .ok
          (pySlice (pyShuffle (seedState seed) (get_image_files dir)).1 0
            (pyInt (((get_image_files dir).length : ℚ) * trainR)),
           pySlice (pyShuffle (seedState seed) (get_image_files dir)).1
            (pyInt (((get_image_files dir).length : ℚ) * trainR))
            (pyInt (((get_image_files dir).length : ℚ) * trainR) +
              pyInt (((get_image_files dir).length : ℚ) * valR)),
           pySlice (pyShuffle (seedState seed) (get_image_files dir)).1
            (pyInt (((get_image_files dir).length : ℚ) * trainR) +
              pyInt (((get_image_files dir).length : ℚ) * valR))
            ((pyShuffle (seedState seed) (get_image_files dir)).1.length : Int)),
        fsLog := [.readDir],
        rand := (pyShuffle (seedState seed) (get_image_files dir)).2 } := by
  unfold split_dataset
  rw [if_pos hg]

/-- Evaluation form of a passing `split_dataset` call with the two rational
cut points already computed to integers, leaving a goal free of rational
arithmetic. -/
theorem split_dataset_eval (dir : List Entry) (trainR valR testR : ℚ)
    (seed : Nat) (g : RandState) (a b : Int)
    (hg : |trainR + valR + testR - 1| < 1 / 1000000)
    (ha : pyInt (((get_image_files dir).length : ℚ) * trainR) = a)
    (hb : pyInt (((get_image_files dir).length : ℚ) * valR) = b) :
    split_dataset dir trainR valR testR seed g =
      { result := .ok
          (pySlice (pyShuffle (seedState seed) (get_image_files dir)).1 0 a,
           pySlice (pyShuffle (seedState seed) (get_image_files dir)).1 a
             (a + b),
           pySlice (pyShuffle (seedState seed) (get_image_files dir)).1
             (a + b)
             ((pyShuffle (seedState seed) (get_image_files dir)).1.length :
               Int)),
        fsLog := [.readDir],
        rand := (pyShuffle (seedState seed) (get_image_files dir)).2 } := by
  rw [split_dataset_ok dir trainR valR testR seed g hg, ha, hb]

/-! ### Claim theorems about the splitter -/

/-- C1 (amended): for every input directory and nonnegative ratios summing
to 1, the three output lists of `split_dataset` form a disjoint cover of
the scanned input files: their concatenation is a permutation of the
input, the lengths add up to the input length, and when the input files
are distinct every input file appears in exactly one output list and the
outputs are pairwise disjoint. -/
theorem split_dataset_partition (dir : List Entry) (trainR valR testR : ℚ)
    (seed : Nat) (g : RandState) (hs : trainR + valR + testR = 1)
    (htr : 0 ≤ trainR) (hvr : 0 ≤ valR) :
    (splitTrain (split_dataset dir trainR valR testR seed g) ++
        splitVal (split_dataset dir trainR valR testR seed g) ++
        splitTest (split_dataset dir trainR valR testR seed g)).Perm
      (get_image_files dir) ∧
    (splitTrain (split_dataset dir trainR valR testR seed g)).length +
        (splitVal (split_dataset dir trainR valR testR seed g)).length +
        (splitTest (split_dataset dir trainR valR testR seed g)).length =
      (get_image_files dir).length ∧
    ((get_image_files dir).Nodup →
      (∀ x ∈ get_image_files dir,
        (splitTrain (split_dataset dir trainR valR testR seed g)).count x +
          (splitVal (split_dataset dir trainR valR testR seed g)).count x +
          (splitTest (split_dataset dir trainR valR testR seed g)).count x
          = 1) ∧
      (∀ x ∈ splitTrain (split_dataset dir trainR valR testR seed g),
        x ∉ splitVal (split_dataset dir trainR valR testR seed g) ∧
        x ∉ splitTest (split_dataset dir trainR valR testR seed g)) ∧
      (∀ x ∈ splitVal (split_dataset dir trainR valR testR seed g),
        x ∉ splitTest (split_dataset dir trainR valR testR seed g))) := by
  have hg : |trainR + valR + testR - 1| < 1 / 1000000 := by
    rw [hs]
    norm_num
  rw [split_dataset_ok dir trainR valR testR seed g hg]
  simp only [splitTrain, splitVal, splitTest]
  set files := get_image_files dir with hfiles
  set sh := (pyShuffle (seedState seed) files).1 with hsh
  set a := pyInt ((files.length : ℚ) * trainR) with ha
  set b := a + pyInt ((files.length : ℚ) * valR) with hb
  have h0a : 0 ≤ a := pyInt_nonneg (mul_nonneg (Nat.cast_nonneg _) htr)
  have hab : a ≤ b :=
    le_add_of_nonneg_right (pyInt_nonneg (mul_nonneg (Nat.cast_nonneg _) hvr))
  have happ := pySlice_tri sh a b h0a hab
  have hperm : sh.Perm files := pyShuffle_perm _ _
  have hmain : (pySlice sh 0 a ++ pySlice sh a b ++
      pySlice sh b (sh.length : Int)).Perm files := by
    rw [happ]
    exact hperm
  refine ⟨hmain, ?_, ?_⟩
  · simpa [Nat.add_assoc] using hmain.length_eq
  · intro hd
    have hall : ∀ x : Entry,
        (pySlice sh 0 a).count x + (pySlice sh a b).count x +
          (pySlice sh b (sh.length : Int)).count x = files.count x := by
      intro x
      have h := hmain.count_eq x
      simpa [List.count_append, Nat.add_assoc] using h
    refine ⟨?_, ?_, ?_⟩
    · intro x hx
      rw [hall x]
      exact List.count_eq_one_of_mem hd hx
    · intro x hx
      have hxf : x ∈ files := hmain.subset (by simp [hx])
      have h1 := hall x
      rw [List.count_eq_one_of_mem hd hxf] at h1
      have hpos : 0 < (pySlice sh 0 a).count x := List.count_pos_iff.mpr hx
      constructor
      · exact List.count_eq_zero.mp (by omega)
      · exact List.count_eq_zero.mp (by omega)
    · intro x hx
      have hxf : x ∈ files := hmain.subset (by simp [hx])
      have h1 := hall x
      rw [List.count_eq_one_of_mem hd hxf] at h1
      have hpos : 0 < (pySlice sh a b).count x := List.count_pos_iff.mpr hx
      exact List.count_eq_zero.mp (by omega)

/-- A five-file directory used to instantiate splitter theorems. -/
def dirA : List Entry :=
  [⟨"f0.jpg", true⟩, ⟨"f1.jpg", true⟩, ⟨"f2.jpg", true⟩,
   ⟨"f3.jpg", true⟩, ⟨"f4.jpg", true⟩]

/-- Witness for C1 at a concrete input: five files, ratios
(4/5, 1/10, 1/10), seed 42, prior generator state 0. -/
theorem split_dataset_partition_witness :
    ((4 / 5 : ℚ) + 1 / 10 + 1 / 10 = 1) ∧ (0 ≤ (4 / 5 : ℚ)) ∧
    (0 ≤ (1 / 10 : ℚ)) ∧
    ((splitTrain (split_dataset dirA (4 / 5) (1 / 10) (1 / 10) 42 0) ++
        splitVal (split_dataset dirA (4 / 5) (1 / 10) (1 / 10) 42 0) ++
        splitTest (split_dataset dirA (4 / 5) (1 / 10) (1 / 10) 42 0)).Perm
      (get_image_files dirA) ∧
    (splitTrain (split_dataset dirA (4 / 5) (1 / 10) (1 / 10) 42 0)).length +
        (splitVal (split_dataset dirA (4 / 5) (1 / 10) (1 / 10) 42 0)).length +
        (splitTest (split_dataset dirA (4 / 5) (1 / 10) (1 / 10) 42 0)).length =
      (get_image_files dirA).length ∧
    ((get_image_files dirA).Nodup →
      (∀ x ∈ get_image_files dirA,
        (splitTrain (split_dataset dirA (4 / 5) (1 / 10) (1 / 10) 42 0)).count x +
          (splitVal (split_dataset dirA (4 / 5) (1 / 10) (1 / 10) 42 0)).count x +
          (splitTest (split_dataset dirA (4 / 5) (1 / 10) (1 / 10) 42 0)).count x
          = 1) ∧
      (∀ x ∈ splitTrain (split_dataset dirA (4 / 5) (1 / 10) (1 / 10) 42 0),
        x ∉ splitVal (split_dataset dirA (4 / 5) (1 / 10) (1 / 10) 42 0) ∧
        x ∉ splitTest (split_dataset dirA (4 / 5) (1 / 10) (1 / 10) 42 0)) ∧
      (∀ x ∈ splitVal (split_dataset dirA (4 / 5) (1 / 10) (1 / 10) 42 0),
        x ∉ splitTest (split_dataset dirA (4 / 5) (1 / 10) (1 / 10) 42 0)))) :=
  ⟨by norm_num, by norm_num, by norm_num,
    split_dataset_partition dirA (4 / 5) (1 / 10) (1 / 10) 42 0
      (by norm_num) (by norm_num) (by norm_num)⟩

/-- A four-file directory exhibiting the C1 counterexample. -/
def dirB : List Entry :=
  [⟨"f0.jpg", true⟩, ⟨"f1.jpg", true⟩, ⟨"f2.jpg", true⟩, ⟨"f3.jpg", true⟩]

/-- C1 as stated is false on the code: with ratios (0.5, -0.5, 1.0), which
sum exactly to 1 and pass the assert, on a four-file input the output
lengths sum to 6, not 4, and one file appears in two output lists (the
exact float arithmetic here coincides with the rational model). -/
theorem split_dataset_partition_cex :
    ((1 / 2 : ℚ) + (-(1 / 2)) + 1 = 1) ∧
    (splitTrain (split_dataset dirB (1 / 2) (-(1 / 2)) 1 42 0)).length +
        (splitVal (split_dataset dirB (1 / 2) (-(1 / 2)) 1 42 0)).length +
        (splitTest (split_dataset dirB (1 / 2) (-(1 / 2)) 1 42 0)).length = 6 ∧
    (get_image_files dirB).length = 4 ∧
    Entry.mk "f0.jpg" true ∈
      splitTrain (split_dataset dirB (1 / 2) (-(1 / 2)) 1 42 0) ∧
    Entry.mk "f0.jpg" true ∈
      splitTest (split_dataset dirB (1 / 2) (-(1 / 2)) 1 42 0) := by
  have hn : (get_image_files dirB).length = 4 := by decide
  have hcast : ((get_image_files dirB).length : ℚ) = 4 := by
    rw [hn]
    norm_num
  have ha : pyInt (((get_image_files dirB).length : ℚ) * (1 / 2)) = 2 := by
    rw [hcast]
    unfold pyInt
    rw [if_neg (by norm_num)]
    norm_num
  have hb : pyInt (((get_image_files dirB).length : ℚ) * (-(1 / 2))) = -2 := by
    rw [hcast]
    unfold pyInt
    rw [if_pos (by norm_num)]
    norm_num
  rw [split_dataset_eval dirB (1 / 2) (-(1 / 2)) 1 42 0 2 (-2)
    (by norm_num) ha hb]
  refine ⟨by norm_num, by decide, by decide, by decide, by decide⟩

/-- C2: `split_dataset` is deterministic in (input order, ratios, seed):
the prior state of the global random generator — the only thing that can
differ between repeated calls in one process or between processes — does
not influence the returned lists, because `random.seed(seed)` overwrites
it before the shuffle. -/
theorem split_dataset_deterministic (dir : List Entry)
    (trainR valR testR : ℚ) (seed : Nat) (g1 g2 : RandState) :
    (split_dataset dir trainR valR testR seed g1).result =
      (split_dataset dir trainR valR testR seed g2).result ∧
    (split_dataset dir trainR valR testR seed g1).fsLog =
      (split_dataset dir trainR valR testR seed g2).fsLog := by
  unfold split_dataset
  by_cases h : |trainR + valR + testR - 1| < 1 / 1000000
  · simp only [if_pos h]
    exact ⟨trivial, trivial⟩
  · simp only [if_neg h]
    exact ⟨trivial, trivial⟩

/-- C4 (amended): the cut points are computed with Python `int()`
(truncation toward zero), which agrees with the claimed `floor` whenever
the ratios are nonnegative; under nonnegative ratios summing to 1 the
output lengths are exactly `⌊n·train⌋` and `⌊n·val⌋`, and the whole
remainder goes to the test split. -/
theorem split_dataset_boundaries (dir : List Entry)
    (trainR valR testR : ℚ) (seed : Nat) (g : RandState)
    (hs : trainR + valR + testR = 1) (htr : 0 ≤ trainR) (hvr : 0 ≤ valR)
    (hte : 0 ≤ testR) :
    (splitTrain (split_dataset dir trainR valR testR seed g)).length =
      (Int.floor (((get_image_files dir).length : ℚ) * trainR)).toNat ∧
    (splitVal (split_dataset dir trainR valR testR seed g)).length =
      (Int.floor (((get_image_files dir).length : ℚ) * valR)).toNat ∧
    (splitTest (split_dataset dir trainR valR testR seed g)).length =
      (get_image_files dir).length -
        (splitTrain (split_dataset dir trainR valR testR seed g)).length -
        (splitVal (split_dataset dir trainR valR testR seed g)).length := by
  have hg : |trainR + valR + testR - 1| < 1 / 1000000 := by
    rw [hs]
    norm_num
  rw [split_dataset_ok dir trainR valR testR seed g hg]
  simp only [splitTrain, splitVal, splitTest]
  set files := get_image_files dir with hfiles
  set sh := (pyShuffle (seedState seed) files).1 with hsh
  have hlen : sh.length = files.length := pyShuffle_length _ _
  set A := Int.floor ((files.length : ℚ) * trainR) with hA
  set B := Int.floor ((files.length : ℚ) * valR) with hB
  have hpa : pyInt ((files.length : ℚ) * trainR) = A :=
    pyInt_of_nonneg (mul_nonneg (Nat.cast_nonneg _) htr)
  have hpb : pyInt ((files.length : ℚ) * valR) = B :=
    pyInt_of_nonneg (mul_nonneg (Nat.cast_nonneg _) hvr)
  have hA0 : 0 ≤ A := Int.floor_nonneg.mpr (mul_nonneg (Nat.cast_nonneg _) htr)
  have hB0 : 0 ≤ B := Int.floor_nonneg.mpr (mul_nonneg (Nat.cast_nonneg _) hvr)
  have hABn : A + B ≤ (files.length : Int) := by
    have h1 : ((A : ℚ)) ≤ (files.length : ℚ) * trainR := Int.floor_le _
    have h2 : ((B : ℚ)) ≤ (files.length : ℚ) * valR := Int.floor_le _
    have h3 : (files.length : ℚ) * trainR + (files.length : ℚ) * valR ≤
        (files.length : ℚ) := by
      have htv : trainR + valR ≤ 1 := by linarith
      calc (files.length : ℚ) * trainR + (files.length : ℚ) * valR
          = (files.length : ℚ) * (trainR + valR) := by ring
        _ ≤ (files.length : ℚ) * 1 :=
            mul_le_mul_of_nonneg_left htv (Nat.cast_nonneg _)
        _ = (files.length : ℚ) := mul_one _
    have h4 : ((A + B : Int) : ℚ) ≤ ((files.length : Int) : ℚ) := by
      push_cast
      linarith
    exact_mod_cast h4
  rw [hpa, hpb]
  have hia : pyIndex sh.length A = A.toNat := by
    apply pyIndex_of_nonneg_le _ hA0
    rw [hlen]
    omega
  have hib : pyIndex sh.length (A + B) = (A + B).toNat := by
    apply pyIndex_of_nonneg_le _ (by omega)
    rw [hlen]
    omega
  have ht : (pySlice sh 0 A).length = A.toNat := by
    unfold pySlice
    rw [pyIndex_zero, hia, List.drop_zero, List.length_take]
    omega
  have hv : (pySlice sh A (A + B)).length = B.toNat := by
    unfold pySlice
    rw [hia, hib, List.length_drop, List.length_take]
    omega
  have hu : (pySlice sh (A + B) (sh.length : Int)).length =
      files.length - A.toNat - B.toNat := by
    unfold pySlice
    rw [hib, pyIndex_length, List.take_length, List.length_drop]
    omega
  refine ⟨ht, hv, ?_⟩
  rw [ht, hv, hu]

/-- Witness for C4 at a concrete input: ten files, ratios
(4/5, 1/10, 1/10), seed 42, giving cut points 8 and 9. -/
theorem split_dataset_boundaries_witness :
    ((4 / 5 : ℚ) + 1 / 10 + 1 / 10 = 1) ∧ (0 ≤ (4 / 5 : ℚ)) ∧
    (0 ≤ (1 / 10 : ℚ)) ∧ (0 ≤ (1 / 10 : ℚ)) ∧
    ((splitTrain (split_dataset dirA (4 / 5) (1 / 10) (1 / 10) 42 0)).length =
      (Int.floor (((get_image_files dirA).length : ℚ) * (4 / 5))).toNat ∧
    (splitVal (split_dataset dirA (4 / 5) (1 / 10) (1 / 10) 42 0)).length =
      (Int.floor (((get_image_files dirA).length : ℚ) * (1 / 10))).toNat ∧
    (splitTest (split_dataset dirA (4 / 5) (1 / 10) (1 / 10) 42 0)).length =
      (get_image_files dirA).length -
        (splitTrain (split_dataset dirA (4 / 5) (1 / 10) (1 / 10) 42 0)).length -
        (splitVal (split_dataset dirA (4 / 5) (1 / 10) (1 / 10) 42 0)).length) :=
  ⟨by norm_num, by norm_num, by norm_num, by norm_num,
    split_dataset_boundaries dirA (4 / 5) (1 / 10) (1 / 10) 42 0
      (by norm_num) (by norm_num) (by norm_num) (by norm_num)⟩

/-- A six-file directory exhibiting the C4 counterexample. -/
def dirC : List Entry :=
  [⟨"f0.jpg", true⟩, ⟨"f1.jpg", true⟩, ⟨"f2.jpg", true⟩,
   ⟨"f3.jpg", true⟩, ⟨"f4.jpg", true⟩, ⟨"f5.jpg", true⟩]

/-- C4 as stated is false on the code: with ratios (0.5, -0.25, 0.75)
(exact in floats, summing to 1, passing the assert) and six input files,
the floor rule of the claim puts the boundary at
`⌊6·0.5⌋ + ⌊6·(-0.25)⌋ = 3 + (-2) = 1`, so the test slice `[1, 6)` would
have five elements; the code truncates toward zero (`int(-1.5) = -1`),
puts the boundary at 2 and returns a four-element test slice. -/
theorem split_dataset_boundaries_cex :
    ((1 / 2 : ℚ) + (-(1 / 4)) + 3 / 4 = 1) ∧
    (get_image_files dirC).length = 6 ∧
    (splitTest (split_dataset dirC (1 / 2) (-(1 / 4)) (3 / 4) 42 0)).length
      = 4 ∧
    Int.floor ((6 : ℚ) * (1 / 2)) + Int.floor ((6 : ℚ) * (-(1 / 4))) = 1 ∧
    6 - (Int.floor ((6 : ℚ) * (1 / 2)) +
      Int.floor ((6 : ℚ) * (-(1 / 4)))) = 5 := by
  have hf1 : Int.floor ((6 : ℚ) * (1 / 2)) = 3 := by norm_num
  have hf2 : Int.floor ((6 : ℚ) * (-(1 / 4))) = -2 := by
    rw [show ((6 : ℚ) * (-(1 / 4))) = -3 / 2 by norm_num]
    rw [Int.floor_eq_iff]
    norm_num
  have hn : (get_image_files dirC).length = 6 := by decide
  have ha : pyInt (((get_image_files dirC).length : ℚ) * (1 / 2)) = 3 := by
    have hcast0 : ((get_image_files dirC).length : ℚ) = 6 := by
      rw [hn]
      norm_num
    rw [hcast0]
    unfold pyInt
    rw [if_neg (by norm_num)]
    norm_num
  have hcast : ((get_image_files dirC).length : ℚ) = 6 := by
    rw [hn]
    norm_num
  have hb : pyInt (((get_image_files dirC).length : ℚ) * (-(1 / 4))) = -1 := by
    rw [hcast]
    unfold pyInt
    rw [if_pos (by norm_num)]
    rw [show (-((6 : ℚ) * (-(1 / 4)))) = 3 / 2 by norm_num]
    have h32 : Int.floor ((3 : ℚ) / 2) = 1 := by
      rw [Int.floor_eq_iff]
      norm_num
    omega
  rw [split_dataset_eval dirC (1 / 2) (-(1 / 4)) (3 / 4) 42 0 3 (-1)
    (by norm_num) ha hb]
  refine ⟨by norm_num, by decide, by decide, ?_, ?_⟩
  · rw [hf1, hf2]
    decide
  · rw [hf1, hf2]
    decide

/-- C5: whenever the ratio sum is off by at least 1e-6 the splitter fails
with the configuration error raised by its first statement, before any
filesystem access (empty action log) and without touching the random
state. -/
theorem split_dataset_invalid_ratios (dir : List Entry)
    (trainR valR testR : ℚ) (seed : Nat) (g : RandState)
    (h : 1 / 1000000 ≤ |trainR + valR + testR - 1|) :
    (split_dataset dir trainR valR testR seed g).result =
      .error .invalidConfiguration ∧
    (split_dataset dir trainR valR testR seed g).fsLog = [] ∧
    (split_dataset dir trainR valR testR seed g).rand = g := by
  unfold split_dataset
  rw [if_neg (not_lt.mpr h)]
  exact ⟨rfl, rfl, rfl⟩

/-- Witness for C5 at the specification's own example ratios
(0.8, 0.1, 0.2). -/
theorem split_dataset_invalid_ratios_witness :
    ((1 / 1000000 : ℚ) ≤ |(4 / 5 : ℚ) + 1 / 10 + 1 / 5 - 1|) ∧
    ((split_dataset dirA (4 / 5) (1 / 10) (1 / 5) 42 7).result =
      .error .invalidConfiguration ∧
    (split_dataset dirA (4 / 5) (1 / 10) (1 / 5) 42 7).fsLog = [] ∧
    (split_dataset dirA (4 / 5) (1 / 10) (1 / 5) 42 7).rand = 7) :=
  ⟨by
    rw [show (4 / 5 : ℚ) + 1 / 10 + 1 / 5 - 1 = 1 / 10 by norm_num,
      abs_of_nonneg (by norm_num : (0 : ℚ) ≤ 1 / 10)]
    norm_num,
   split_dataset_invalid_ratios dirA (4 / 5) (1 / 10) (1 / 5) 42 7
    (by
      rw [show (4 / 5 : ℚ) + 1 / 10 + 1 / 5 - 1 = 1 / 10 by norm_num,
        abs_of_nonneg (by norm_num : (0 : ℚ) ≤ 1 / 10)]
      norm_num)⟩

/-! ### The scanner claim -/

/-- C9: `get_image_files` returns exactly the direct child entries that
are regular files whose extension, lower-cased, is one of .jpg, .jpeg,
.png, .bmp; it preserves their order (the result is a sublist of the
directory listing) and never looks below the direct children. -/
theorem get_image_files_spec (dir : List Entry) :
    (∀ e : Entry, e ∈ get_image_files dir ↔
      e ∈ dir ∧ e.isFile = true ∧
        lowerString (suffixOf e.name) ∈ [".jpg", ".jpeg", ".png", ".bmp"]) ∧
    (get_image_files dir).Sublist dir := by
  constructor
  · intro e
    simp [get_image_files, List.mem_filter, exts, List.contains_eq_any_beq,
      and_assoc]
  · exact List.filter_sublist dir

/-! ### The orchestrator -/

/-- What `preprocess_dataset` finds on disk when it starts: whether the
raw-data root exists, and the listings of the two class directories
(`none` = directory missing). -/
structure RawFS where
  rawExists : Bool
  catDir : Option (List Entry)
  dogDir : Option (List Entry)

/-- `preprocess_dataset()`.  Faithful up to its crash point: it checks the
raw root (else `FileNotFoundError`), cleans the output tree (a side
effect on the output directories only, not represented in the return
value), then iterates `class_map` in insertion order, `cat` first.  For
the first class it checks the directory exists, scans it with
`get_image_files`, and then evaluates `split_files(files, ...)` — a name
defined nowhere in the repository (the module defines `split_dataset`),
so Python raises `NameError: name 'split_files' is not defined` here.
Everything after this call — materialization via `save_images`, the `dog`
iteration, and the final empty-directory sanity checks of lines 153-159 —
is unreachable and therefore absent from the model. -/
def preprocess_dataset (fs : RawFS) : Except PyError Unit :=
  if fs.rawExists = false then .error (.notFound "data/raw")
  else
    match fs.catDir with
    | none => .error (.notFound "data/raw/cat")
    | some catEntries =>
      let _files := get_image_files catEntries
      .error (.nameError "split_files")

/-- A 100-image cat directory. -/
def catDir100 : List Entry :=
  (List.range 100).map fun i => ⟨"cat" ++ toString i ++ ".jpg", true⟩

/-- A 100-image dog directory. -/
def dogDir100 : List Entry :=
  (List.range 100).map fun i => ⟨"dog" ++ toString i ++ ".jpg", true⟩

/-- C3: on a fully valid input tree (raw root present, both class
directories present with 100 images each) the orchestrator does not reach
the splitter, the materializer or the 80/10/10 output: it stops with the
`NameError` for the undefined `split_files`. -/
theorem preprocess_dataset_hits_undefined_name :
    preprocess_dataset ⟨true, some catDir100, some dogDir100⟩ =
      .error (.nameError "split_files") := rfl

/-- A three-image cat directory. -/
def catDirSmall : List Entry :=
  [⟨"c0.jpg", true⟩, ⟨"c1.jpg", true⟩, ⟨"c2.jpg", true⟩]

/-- A three-image dog directory (the scenario where every dog test file
is corrupt and `test/dog` would come out empty). -/
def dogDirSmall : List Entry :=
  [⟨"d0.jpg", true⟩, ⟨"d1.jpg", true⟩, ⟨"d2.jpg", true⟩]

/-- C6: even in a run that would leave `test/dog` empty, the orchestrator
cannot raise the empty-output error of its sanity-check loop: the
`NameError` for `split_files` fires first, in the first loop iteration,
before any materialization or verification. -/
theorem preprocess_dataset_no_empty_output_error :
    preprocess_dataset ⟨true, some catDirSmall, some dogDirSmall⟩ =
      .error (.nameError "split_files") ∧
    PyError.nameError "split_files" ≠ PyError.emptyOutput "test" "dog" :=
  ⟨rfl, by decide⟩

/-! ### The image normalizer and materializer -/

/-- An 8-bit RGB pixel (channels as naturals, bounded by 255 in
well-formed images). -/
structure RGB where
  r : Nat
  g : Nat
  b : Nat
deriving DecidableEq, Repr

/-- A decoded source image in one of the pixel modes the pipeline meets:
true-colour, true-colour with alpha, or grayscale. -/
inductive RawImage where
  | rgb (rows : List (List RGB))
  | rgba (rows : List (List (RGB × Nat)))
  | gray (rows : List (List Nat))
deriving DecidableEq, Repr

/-- `img.convert("RGB")`: drop the alpha channel, replicate a gray value
into the three channels. -/
def convertRGB : RawImage → List (List RGB)
  | .rgb rows => rows
  | .rgba rows => rows.map fun row => row.map Prod.fst
  | .gray rows => rows.map fun row => row.map fun v => ⟨v, v, v⟩

/-- All channels of a decoded 8-bit image are at most 255. -/
def wfImage : RawImage → Bool
  | .rgb rows => rows.all fun row => row.all fun p =>
      p.r ≤ 255 && p.g ≤ 255 && p.b ≤ 255
  | .rgba rows => rows.all fun row => row.all fun p =>
      p.1.r ≤ 255 && p.1.g ≤ 255 && p.1.b ≤ 255 && p.2 ≤ 255
  | .gray rows => rows.all fun row => row.all fun v => v ≤ 255

/-- Model of `img.resize((w, h), Image.LANCZOS)`.  The library resampler
interpolates with a floating-point Lanczos kernel and clamps back to
8-bit channels; it is library code, not code of this repository, and is
modelled by an integer nearest-neighbour resampler with the same output
contract: a `h`-row by `w`-column image whose channels come from the
source image (or are zero where the source is degenerate). -/
def resizeImage (rows : List (List RGB)) (w h : Nat) : List (List RGB) :=
  (List.range h).map fun i =>
    let srcRow := rows.getD (i * rows.length / h) []
    (List.range w).map fun j => srcRow.getD (j * srcRow.length / w) ⟨0, 0, 0⟩

/-- `np.asarray(img, dtype=np.float32) / 255.0`: every channel scaled
into `[0, 1]`. -/
def toFloatArr (rows : List (List RGB)) : List (List (ℚ × ℚ × ℚ)) :=
  rows.map fun row => row.map fun p =>
    ((p.r : ℚ) / 255, (p.g : ℚ) / 255, (p.b : ℚ) / 255)

/-- What sits on disk under a path: a decodable image, or bytes that make
the decoder raise. -/
inductive DiskFile where
  | image (img : RawImage)
  | corrupt
deriving DecidableEq, Repr

/-- `PIL.Image.open(path)` over the modelled filesystem: a missing path
raises `FileNotFoundError`, an undecodable file raises
`UnidentifiedImageError`, otherwise the decoded image is returned. -/
def openImage (fs : List (String × DiskFile)) (p : String) :
    Except String RawImage :=
  match fs.lookup p with
  | none => .error "FileNotFoundError"
  | some .corrupt => .error "UnidentifiedImageError"
  | some (.image img) => .ok img

/-- `load_and_preprocess_image(image_path, target_size)`: open, convert
to RGB, resize, scale by 255.  The `try/except Exception` of the source
catches every decode/IO failure and returns `None` — modelled as the
`.error` branch mapping to `none`. -/
def load_and_preprocess_image (fs : List (String × DiskFile)) (p : String)
    (target : Nat × Nat) : Option (List (List (ℚ × ℚ × ℚ))) :=
  match openImage fs p with
  | .error _ => none
  | .ok img => some (toFloatArr (resizeImage (convertRGB img) target.1 target.2))

/-- A re-encoded output file as `img.save(path, format="JPEG",
quality=95)` produces it. -/
inductive EncodedImage where
  | jpeg (quality : Nat) (rows : List (List RGB))
deriving DecidableEq, Repr

/-- One file written by the materializer: destination split directory
name, class directory name, file name, and the encoded payload. -/
structure OutFile where
  destName : String
  clsName : String
  fileName : String
  data : EncodedImage
deriving DecidableEq, Repr

/-- One channel of `(img_array * 255).astype(np.uint8)`: scale back,
truncate, wrap into a byte. -/
def u8OfRat (q : ℚ) : Nat :=
  (pyInt (q * 255)).toNat % 256

/-- `Image.fromarray((img_array * 255).astype(np.uint8))`. -/
def fromFloatArr (arr : List (List (ℚ × ℚ × ℚ))) : List (List RGB) :=
  arr.map fun row => row.map fun q =>
    ⟨u8OfRat q.1, u8OfRat q.2.1, u8OfRat q.2.2⟩

/-- `save_images(files, dest_dir, class_name)`: normalize each file with
the default (224, 224) target, skip the failures, and write the rest as
JPEG quality 95 under `dest/class/` with the file's original name. -/
def save_images (fs : List (String × DiskFile)) (files : List String)
    (destName clsName : String) : List OutFile :=
  files.filterMap fun p =>
    (load_and_preprocess_image fs p (224, 224)).map fun arr =>
      ⟨destName, clsName, p, .jpeg 95 (fromFloatArr arr)⟩

/-- C7: whenever opening or decoding fails — a nonexistent path included —
the normalizer returns the failure indicator `none` to its caller instead
of letting the exception escape. -/
theorem load_and_preprocess_image_failure (fs : List (String × DiskFile))
    (p : String) (target : Nat × Nat) (msg : String)
    (h : openImage fs p = .error msg) :
    load_and_preprocess_image fs p target = none := by
  unfold load_and_preprocess_image
  rw [h]

/-- Witness for C7: normalizing a nonexistent path on an empty filesystem
yields `none`. -/
theorem load_and_preprocess_image_failure_witness :
    openImage [] "nonexistent_image.jpg" = .error "FileNotFoundError" ∧
    load_and_preprocess_image [] "nonexistent_image.jpg" (224, 224) = none :=
  ⟨rfl, load_and_preprocess_image_failure [] "nonexistent_image.jpg"
    (224, 224) "FileNotFoundError" rfl⟩

/-- A default lookup lands in the list or yields the default. -/
theorem getD_mem_or_default {α : Type} (l : List α) (i : Nat) (d : α) :
    l.getD i d ∈ l ∨ l.getD i d = d := by
  rw [List.getD_eq_getElem?_getD]
  cases h : l[i]? with
  | none => exact Or.inr rfl
  | some x => exact Or.inl (List.getElem?_mem h)

/-- Channel bounds survive the RGB conversion. -/
theorem convertRGB_bound (img : RawImage) (hwf : wfImage img = true) :
    ∀ row ∈ convertRGB img, ∀ p ∈ row,
      p.r ≤ 255 ∧ p.g ≤ 255 ∧ p.b ≤ 255 := by
  cases img with
  | rgb rows =>
    intro row hrow p hp
    simp only [wfImage, List.all_eq_true, Bool.and_eq_true,
      decide_eq_true_eq] at hwf
    have h := hwf row hrow p hp
    exact ⟨h.1.1, h.1.2, h.2⟩
  | rgba rows =>
    intro row hrow p hp
    simp only [convertRGB, List.mem_map] at hrow
    obtain ⟨srcRow, hsrc, rfl⟩ := hrow
    simp only [List.mem_map] at hp
    obtain ⟨q, hq, rfl⟩ := hp
    simp only [wfImage, List.all_eq_true, Bool.and_eq_true,
      decide_eq_true_eq] at hwf
    have h := hwf srcRow hsrc q hq
    exact ⟨h.1.1.1, h.1.1.2, h.1.2⟩
  | gray rows =>
    intro row hrow p hp
    simp only [convertRGB, List.mem_map] at hrow
    obtain ⟨srcRow, hsrc, rfl⟩ := hrow
    simp only [List.mem_map] at hp
    obtain ⟨v, hv, rfl⟩ := hp
    simp only [wfImage, List.all_eq_true, decide_eq_true_eq] at hwf
    have h := hwf srcRow hsrc v hv
    exact ⟨h, h, h⟩

/-- The resized image always has `h` rows. -/
theorem resizeImage_length (rows : List (List RGB)) (w h : Nat) :
    (resizeImage rows w h).length = h := by
  simp [resizeImage]

/-- Every row of the resized image has `w` pixels. -/
theorem resizeImage_row_length (rows : List (List RGB)) (w h : Nat) :
    ∀ row ∈ resizeImage rows w h, row.length = w := by
  intro row hrow
  simp only [resizeImage, List.mem_map, List.mem_range] at hrow
  obtain ⟨i, hi, rfl⟩ := hrow
  simp

/-- Channel bounds survive resizing. -/
theorem resizeImage_bound (rows : List (List RGB)) (w h : Nat)
    (hb : ∀ row ∈ rows, ∀ p ∈ row, p.r ≤ 255 ∧ p.g ≤ 255 ∧ p.b ≤ 255) :
    ∀ row ∈ resizeImage rows w h, ∀ p ∈ row,
      p.r ≤ 255 ∧ p.g ≤ 255 ∧ p.b ≤ 255 := by
  intro row hrow p hp
  simp only [resizeImage, List.mem_map, List.mem_range] at hrow
  obtain ⟨i, hi, rfl⟩ := hrow
  simp only [List.mem_map, List.mem_range] at hp
  obtain ⟨j, hj, rfl⟩ := hp
  rcases getD_mem_or_default rows (i * rows.length / h) [] with hsrc | hsrc
  · rcases getD_mem_or_default (rows.getD (i * rows.length / h) [])
      (j * (rows.getD (i * rows.length / h) []).length / w) ⟨0, 0, 0⟩ with
      hpix | hpix
    · exact hb _ hsrc _ hpix
    · rw [hpix]
      exact ⟨Nat.zero_le _, Nat.zero_le _, Nat.zero_le _⟩
  · rw [hsrc]
    exact ⟨Nat.zero_le _, Nat.zero_le _, Nat.zero_le _⟩

/-- C8: on any decodable 8-bit image the normalizer run at target
(224, 224) succeeds with a 224 x 224 array of 3-channel pixels, every
component of which lies in the closed interval [0, 1], obtained by
decode, RGB-convert, resize and division by 255. -/
theorem load_and_preprocess_image_shape_range
    (fs : List (String × DiskFile)) (p : String) (img : RawImage)
    (hopen : openImage fs p = .ok img) (hwf : wfImage img = true) :
    ∃ arr, load_and_preprocess_image fs p (224, 224) = some arr ∧
      arr.length = 224 ∧
      (∀ row ∈ arr, row.length = 224) ∧
      (∀ row ∈ arr, ∀ q ∈ row,
        0 ≤ q.1 ∧ q.1 ≤ 1 ∧ 0 ≤ q.2.1 ∧ q.2.1 ≤ 1 ∧
        0 ≤ q.2.2 ∧ q.2.2 ≤ 1) := by
  refine ⟨toFloatArr (resizeImage (convertRGB img) 224 224), ?_, ?_, ?_, ?_⟩
  · unfold load_and_preprocess_image
    rw [hopen]
  · simp [toFloatArr, resizeImage_length]
  · intro row hrow
    simp only [toFloatArr, List.mem_map] at hrow
    obtain ⟨r0, hr0, rfl⟩ := hrow
    rw [List.length_map]
    exact resizeImage_row_length _ _ _ r0 hr0
  · intro row hrow q hq
    simp only [toFloatArr, List.mem_map] at hrow
    obtain ⟨r0, hr0, rfl⟩ := hrow
    simp only [List.mem_map] at hq
    obtain ⟨pix, hpix, rfl⟩ := hq
    obtain ⟨h1, h2, h3⟩ := resizeImage_bound _ 224 224
      (convertRGB_bound img hwf) r0 hr0 pix hpix
    refine ⟨?_, ?_, ?_, ?_, ?_, ?_⟩
    · positivity
    · rw [div_le_one (by norm_num)]
      exact_mod_cast h1
    · positivity
    · rw [div_le_one (by norm_num)]
      exact_mod_cast h2
    · positivity
    · rw [div_le_one (by norm_num)]
      exact_mod_cast h3

/-- A concrete 2 x 2 RGB test image. -/
def imgA : RawImage :=
  .rgb [[⟨10, 20, 30⟩, ⟨0, 0, 0⟩], [⟨255, 255, 255⟩, ⟨1, 2, 3⟩]]

/-- A one-file filesystem holding the test image. -/
def fsA : List (String × DiskFile) := [("a.jpg", .image imgA)]

/-- Witness for C8 at the concrete image. -/
theorem load_and_preprocess_image_shape_range_witness :
    openImage fsA "a.jpg" = .ok imgA ∧ wfImage imgA = true ∧
    (∃ arr, load_and_preprocess_image fsA "a.jpg" (224, 224) = some arr ∧
      arr.length = 224 ∧
      (∀ row ∈ arr, row.length = 224) ∧
      (∀ row ∈ arr, ∀ q ∈ row,
        0 ≤ q.1 ∧ q.1 ≤ 1 ∧ 0 ≤ q.2.1 ∧ q.2.1 ≤ 1 ∧
        0 ≤ q.2.2 ∧ q.2.2 ≤ 1)) :=
  ⟨rfl, by decide,
    load_and_preprocess_image_shape_range fsA "a.jpg" imgA rfl (by decide)⟩

/-- C10: every successfully normalized input is written by the
materializer under its original file name — original extension included —
with a JPEG quality-95 payload. -/
theorem save_images_jpeg_under_original_name
    (fs : List (String × DiskFile)) (files : List String)
    (destName clsName p : String) (hmem : p ∈ files)
    (hload : (load_and_preprocess_image fs p (224, 224)).isSome = true) :
    ∃ o ∈ save_images fs files destName clsName,
      o.fileName = p ∧ o.destName = destName ∧ o.clsName = clsName ∧
      ∃ rows, o.data = .jpeg 95 rows := by
  obtain ⟨arr, harr⟩ := Option.isSome_iff_exists.mp hload
  refine ⟨⟨destName, clsName, p, .jpeg 95 (fromFloatArr arr)⟩, ?_, rfl, rfl,
    rfl, ⟨_, rfl⟩⟩
  unfold save_images
  refine List.mem_filterMap.mpr ⟨p, hmem, ?_⟩
  rw [harr]
  rfl

/-- A concrete 1 x 1 RGB test image. -/
def imgB : RawImage := .rgb [[⟨5, 6, 7⟩]]

/-- A one-file filesystem holding a PNG-named image. -/
def fsB : List (String × DiskFile) := [("x.png", .image imgB)]

/-- Witness for C10: an input named `x.png` yields an output file still
named `x.png` whose payload is JPEG quality 95. -/
theorem save_images_jpeg_under_original_name_witness :
    ("x.png" ∈ ["x.png"]) ∧
    (load_and_preprocess_image fsB "x.png" (224, 224)).isSome = true ∧
    (∃ o ∈ save_images fsB ["x.png"] "train" "cat",
      o.fileName = "x.png" ∧ o.destName = "train" ∧ o.clsName = "cat" ∧
      ∃ rows, o.data = .jpeg 95 rows) :=
  ⟨by simp, rfl,
    save_images_jpeg_under_original_name fsB ["x.png"] "train" "cat" "x.png"
      (by simp) rfl⟩

end CatsDogs
